import Mathlib

/-!
Shallow embedding of the Diet-Delight backend recipe controller
(src/controllers/recipeController.js) and proofs about it.

JS strings are modelled as lists of characters (`Str`), JS arrays as
lists, possibly-undefined values as `Option`, and JS exceptions as
`Except`.  The handler `getRecipes` is embedded as a pure function of
the request parameters, the current store contents, the resolved
provider response, and the (arbitrary) permutation produced by the
comparator-based shuffle.
-/

namespace DietDelight

abbrev Str := List Char

/-- JS `str.split(sep)` for a single-character separator: accumulator-based
scan producing at least one (possibly empty) segment. -/
def jsSplitAux (sep : Char) : Str → Str → List Str
  | [], acc => [acc.reverse]
  | c :: rest, acc =>
    if c = sep then acc.reverse :: jsSplitAux sep rest []
    else jsSplitAux sep rest (c :: acc)

/-- JS `str.split(sep)`. -/
def jsSplit (sep : Char) (s : Str) : List Str := jsSplitAux sep s []

/-- JS `arr.join(sep)`: interleave the separator between the elements. -/
def jsJoin (sep : Str) : List Str → Str
  | [] => []
  | [w] => w
  | w :: ws => w ++ sep ++ jsJoin sep ws

/-- JS `toUpperCase` of one code point (ECMA-262 Default Case Conversion,
which is string-valued: special casings can grow the string, as in
uppercase of U+00DF sharp s = "SS").  The model is exact on the Latin-1
block and on its case images; code points outside that fragment are kept
unchanged, which is the modelled subset, not a claim about them. -/
def jsUpperChar (c : Char) : Str :=
  if c.toNat ≥ 97 ∧ c.toNat ≤ 122 then [Char.ofNat (c.toNat - 32)]
  else if c.toNat = 181 then [Char.ofNat 924]
  else if c.toNat = 223 then ['S', 'S']
  else if c.toNat ≥ 224 ∧ c.toNat ≤ 254 ∧ c.toNat ≠ 247 then [Char.ofNat (c.toNat - 32)]
  else if c.toNat = 255 then [Char.ofNat 376]
  else [c]

/-- JS `toLowerCase` of one code point, same modelled fragment as
`jsUpperChar`: exact on Latin-1 (where lowercasing has no special
casing) and on the Latin-1 case images U+0178 and U+039C. -/
def jsLowerChar (c : Char) : Str :=
  if c.toNat ≥ 65 ∧ c.toNat ≤ 90 then [Char.ofNat (c.toNat + 32)]
  else if c.toNat ≥ 192 ∧ c.toNat ≤ 222 ∧ c.toNat ≠ 215 then [Char.ofNat (c.toNat + 32)]
  else if c.toNat = 376 then [Char.ofNat 255]
  else if c.toNat = 924 then [Char.ofNat 956]
  else [c]

/-- The controller's `toLowerCase` helper (line 23): JS
`str.toLowerCase()` maps every code point through the full lowercase
conversion. -/
def jsToLowerCase (s : Str) : Str := s.flatMap jsLowerChar

/-- One hyphen-segment of `capitalizeWords` (recipeController.js line 19):
`word.charAt(0).toUpperCase() + word.slice(1).toLowerCase()`.  The
uppercase conversion of the first code point may produce several
characters (JS special casing). -/
def capitalizeWord : Str → Str
  | [] => []
  | c :: rest => jsUpperChar c ++ jsToLowerCase rest

/-- The controller's `capitalizeWords` (recipeController.js lines 17-20):
split on hyphens, capitalize each segment, rejoin with hyphens. -/
def capitalizeWords (s : Str) : Str :=
  jsJoin ['-'] ((jsSplit '-' s).map capitalizeWord)

/-- Whether every character of the string is ASCII: on this subset both
JS case conversions are the simple single-character ASCII maps. -/
def asciiOnly (s : Str) : Bool := s.all fun c => c.toNat < 128

/-- Characters that `encodeURIComponent` leaves unescaped. -/
def isUriUnreserved (c : Char) : Bool :=
  c.isAlphanum || c = '-' || c = '_' || c = '.' || c = '!' || c = '~' ||
    c = '*' || c = '\'' || c = '(' || c = ')'

/-- Upper-case hexadecimal digit for a value below 16. -/
def hexDigit (n : Nat) : Char :=
  if n < 10 then Char.ofNat (48 + n) else Char.ofNat (55 + n)

/-- UTF-8 byte sequence of one character (as numbers below 256). -/
def utf8Bytes (c : Char) : List Nat :=
  let n := c.toNat
  if n < 128 then [n]
  else if n < 2048 then [192 + n / 64, 128 + n % 64]
  else if n < 65536 then [224 + n / 4096, 128 + (n / 64) % 64, 128 + n % 64]
  else [240 + n / 262144, 128 + (n / 4096) % 64, 128 + (n / 64) % 64, 128 + n % 64]

/-- JS `encodeURIComponent`: unreserved characters pass through, all other
characters become percent-escaped UTF-8 bytes. -/
def encodeURIComponent (s : Str) : Str :=
  s.flatMap fun c =>
    if isUriUnreserved c then [c]
    else (utf8Bytes c).flatMap fun b => ['%', hexDigit (b / 16), hexDigit (b % 16)]

/-- A JS number as it can appear in the mapped recipes: an exact value,
or one of the non-finite results of division. -/
inductive JsNumber
  | num (q : ℚ)
  | nan
  | posInf
  | negInf
deriving DecidableEq

/-- JS division `x / y` where the divisor may be `undefined` (`none`):
dividing by `undefined` gives `NaN`, dividing by zero gives an infinity
(or `NaN` for `0 / 0`). -/
def jsDiv (x : ℚ) (y : Option ℚ) : JsNumber :=
  match y with
  | none => .nan
  | some y =>
    if y = 0 then (if x = 0 then .nan else if 0 < x then .posInf else .negInf)
    else .num (x / y)

/-- JS `v || dflt` for a possibly-undefined string: `undefined` and the
empty string are falsy. -/
def jsOrStr (v : Option Str) (dflt : Str) : Str :=
  match v with
  | none => dflt
  | some s => if s.isEmpty then dflt else s

/-- The Recipe shape built by the controller's mapping step and stored in
the collection (recipeController.js lines 62-77). -/
structure Recipe where
  title : Str
  image : Str
  source : Str
  instructionsUrl : Str
  dietLabels : List Str
  healthLabels : List Str
  ingredients : List Str
  servingSize : Option ℚ
  caloriesPerServing : Option JsNumber
  totalTime : Option ℚ
  cuisineType : List Str
  mealType : List Str
  dishType : List Str
  totalNutrients : List (Str × Str)
deriving DecidableEq

/-- A document as persisted in MongoDB: the recipe body plus the internal
identifier and version fields that the query projection removes. -/
structure StoredDoc where
  body : Recipe
  mongoId : Nat
  mongoVer : Nat
deriving DecidableEq

/-- The MongoDB query object built at recipeController.js lines 34-42:
an optional conjunctive constraint per label category. -/
structure MongoQuery where
  dietAll : Option (List Str)
  healthAll : Option (List Str)
deriving DecidableEq

/-- MongoDB array-field matching: every requested value occurs in the
field array; an empty requested list matches no document. -/
def mongoAll (req : List Str) (field : List Str) : Bool :=
  !req.isEmpty && req.all fun t => field.contains t

/-- Whether a recipe document satisfies the query object. -/
def matchesQuery (q : MongoQuery) (r : Recipe) : Bool :=
  (match q.dietAll with
   | none => true
   | some l => mongoAll l r.dietLabels) &&
  (match q.healthAll with
   | none => true
   | some l => mongoAll l r.healthLabels)

/-- The store lookup at recipeController.js line 47, with the projection
that excludes the internal identifier and version fields: matching
documents are returned as bare recipe bodies. -/
def findProjected (q : MongoQuery) (store : List StoredDoc) : List Recipe :=
  (store.filter fun d => matchesQuery q d.body).map fun d => d.body

/-- Bulk insert at recipeController.js line 80: the batch is appended to
the collection, each record becoming a document. -/
def insertMany (store : List StoredDoc) (recs : List Recipe) : List StoredDoc :=
  store ++ recs.map fun r => { body := r, mongoId := 0, mongoVer := 0 }

/-- A `diet` or `health` request parameter as delivered by the query
string parser: absent, one value, or an array of values. -/
inductive QueryParam
  | missing
  | single (s : Str)
  | multiple (l : List Str)
deriving DecidableEq

/-- Lines 13-14 and 26-27: `req.query.diet || []` followed by
`Array.isArray(x) ? x.map(capitalizeWords) : [capitalizeWords(x)]`. -/
def normalizeParam : QueryParam → List Str
  | .missing => []
  | .single s => [capitalizeWords s]
  | .multiple l => l.map capitalizeWords

/-- The raw token list as supplied by the client (before normalization),
after the `|| []` defaulting of an absent parameter. -/
def rawTokens : QueryParam → List Str
  | .missing => []
  | .single s => [s]
  | .multiple l => l

/-- One hit of the provider response: the fields of `hit.recipe` that the
mapping step reads, each `Option` when the controller does not assume
its presence. -/
structure RawRecipe where
  label : Str
  image : Str
  source : Option Str
  url : Option Str
  dietLabels : Option (List Str)
  healthLabels : Option (List Str)
  ingredientLines : Option (List Str)
  yield : Option ℚ
  calories : Option ℚ
  totalTime : Option ℚ
  cuisineType : Option (List Str)
  mealType : Option (List Str)
  dishType : Option (List Str)
  totalNutrients : Option (List (Str × Str))
deriving DecidableEq

/-- One element of `data.hits`. -/
structure ProviderHit where
  recipe : RawRecipe
deriving DecidableEq

/-- The provider response body; `hits` is absent when the payload has no
results container. -/
structure ProviderData where
  hits : Option (List ProviderHit)
deriving DecidableEq

/-- A thrown JS exception (only its occurrence matters to the control
flow, not its payload). -/
inductive JsError
  | typeError
deriving DecidableEq

/-- The mapping of one provider hit into the Recipe shape
(recipeController.js lines 62-77).  Accessing `.map` on an absent
`dietLabels` or `healthLabels` throws a `TypeError`, so those two reads
are fallible; every other field uses a guarded access or a `||`
default. -/
def mapHit (hit : ProviderHit) : Except JsError Recipe :=
  match hit.recipe.dietLabels with
  | none => .error .typeError
  | some diets =>
    match hit.recipe.healthLabels with
    | none => .error .typeError
    | some healths =>
      .ok
        { title := hit.recipe.label
          image := hit.recipe.image
          source := jsOrStr hit.recipe.source (String.toList "Unknown")
          instructionsUrl := jsOrStr hit.recipe.url (String.toList "No URL available")
          dietLabels := diets.map capitalizeWords
          healthLabels := healths.map capitalizeWords
          ingredients := hit.recipe.ingredientLines.getD []
          servingSize := hit.recipe.yield
          caloriesPerServing :=
            match hit.recipe.calories with
            | none => none
            | some c => some (jsDiv c hit.recipe.yield)
          totalTime := hit.recipe.totalTime
          cuisineType := hit.recipe.cuisineType.getD []
          mealType := hit.recipe.mealType.getD []
          dishType := hit.recipe.dishType.getD []
          totalNutrients := hit.recipe.totalNutrients.getD [] }

/-- JS `arr.map(f)` where `f` may throw: elements are processed left to
right and the first exception aborts the whole map. -/
def mapExcept (f : α → Except ε β) : List α → Except ε (List β)
  | [] => .ok []
  | x :: xs =>
    match f x with
    | .error e => .error e
    | .ok y =>
      match mapExcept f xs with
      | .error e => .error e
      | .ok ys => .ok (y :: ys)

/-- The HTTP outcome of the retrieval handler. -/
inductive HttpResponse
  | json (recipes : List Recipe)
  | error (status : Nat) (msg : Str)
deriving DecidableEq

/-- Everything observable about one run of `getRecipes`: the response,
the store contents afterwards, how many provider calls were made, and
the query-string argument passed to the provider (when called). -/
structure GetRecipesResult where
  response : HttpResponse
  store : List StoredDoc
  providerCalls : Nat
  providerQuery : Option Str
deriving DecidableEq

/-- The MongoDB query object built from the request parameters
(recipeController.js lines 34-42): a `dietLabels` constraint only when
the diet token array is nonempty, likewise for `healthLabels`. -/
def storeQueryOf (dietQ healthQ : QueryParam) : MongoQuery :=
  { dietAll :=
      if 0 < (normalizeParam dietQ).length then some (normalizeParam dietQ) else none
    healthAll :=
      if 0 < (normalizeParam healthQ).length then some (normalizeParam healthQ) else none }

/-- The store lookup result for a request (line 47). -/
def storeMatches (dietQ healthQ : QueryParam) (store : List StoredDoc) : List Recipe :=
  findProjected (storeQueryOf dietQ healthQ) store

/-- The provider query string built at lines 53-55: the lowercase diet
tokens as repeated `diet=` parameters, then `&`, then the lowercase
health tokens as repeated `health=` parameters. -/
def buildQueryString (dietLower healthLower : List Str) : Str :=
  jsJoin ['&']
      (dietLower.map fun d => String.toList "diet=" ++ encodeURIComponent d) ++
    '&' ::
      jsJoin ['&']
        (healthLower.map fun h => String.toList "health=" ++ encodeURIComponent h)

/-- The query string for a request's parameters. -/
def providerQueryStringOf (dietQ healthQ : QueryParam) : Str :=
  buildQueryString ((normalizeParam dietQ).map jsToLowerCase)
    ((normalizeParam healthQ).map jsToLowerCase)

/-- The argument passed to `fetchRecipes` at line 56: a leading ampersand
followed by the built query string. -/
def fallbackQuerySent (dietQ healthQ : QueryParam) : Str :=
  '&' :: providerQueryStringOf dietQ healthQ

/-- The early 404 return at line 86 when the provider has no `hits`
container: no mapping, no insert. -/
def notFoundResult (dietQ healthQ : QueryParam) (store : List StoredDoc) :
    GetRecipesResult :=
  { response := .error 404 (String.toList "No recipes found")
    store := store
    providerCalls := 1
    providerQuery := some (fallbackQuerySent dietQ healthQ) }

/-- The rest of the `hits` branch (lines 62-97): if the mapping of the
first 100 hits succeeds, persist them all and respond with the shuffled
truncation; if it throws, the surrounding catch answers the generic 500
and nothing is inserted. -/
def mappedResult (dietQ healthQ : QueryParam) (store : List StoredDoc)
    (shuffle : List Recipe → List Recipe) :
    Except JsError (List Recipe) → GetRecipesResult
  | .ok fetchedRecipes =>
    { response := .json ((shuffle fetchedRecipes).take 12)
      store := insertMany store fetchedRecipes
      providerCalls := 1
      providerQuery := some (fallbackQuerySent dietQ healthQ) }
  | .error _ =>
    { response := .error 500 (String.toList "Internal Server Error")
      store := store
      providerCalls := 1
      providerQuery := some (fallbackQuerySent dietQ healthQ) }

/-- The fallback branch of the handler (recipeController.js lines 51-87):
call the provider, and either map + persist + use the fetched records,
or answer 404 when the response or its `hits` container is absent. -/
def getRecipesFallback (dietQ healthQ : QueryParam) (store : List StoredDoc)
    (providerData : Option ProviderData)
    (shuffle : List Recipe → List Recipe) : GetRecipesResult :=
  match providerData with
  | some d =>
    match d.hits with
    | some hits => mappedResult dietQ healthQ store shuffle (mapExcept mapHit (hits.take 100))
    | none => notFoundResult dietQ healthQ store
  | none => notFoundResult dietQ healthQ store

/-- The no-fallback path (lines 88-97): the store's matches are used
as-is, shuffled and truncated to 12; no provider call and no write. -/
def storeResult (dietQ healthQ : QueryParam) (store : List StoredDoc)
    (shuffle : List Recipe → List Recipe) : GetRecipesResult :=
  { response := .json ((shuffle (storeMatches dietQ healthQ store)).take 12)
    store := store
    providerCalls := 0
    providerQuery := none }

/-- The retrieval handler `getRecipes` (recipeController.js lines 10-104)
as a pure function.  `providerData` is the value the provider call would
resolve to (inspected only when the call happens); `shuffle` stands for
the comparator-based `sort` at line 93 and is constrained to a
permutation in the theorems. -/
def getRecipes (dietQ healthQ : QueryParam) (store : List StoredDoc)
    (providerData : Option ProviderData)
    (shuffle : List Recipe → List Recipe) : GetRecipesResult :=
  if (storeMatches dietQ healthQ store).length < 12 then
    getRecipesFallback dietQ healthQ store providerData shuffle
  else
    storeResult dietQ healthQ store shuffle

/-- Whether the provider response lacks a `hits` container (the `data &&
data.hits` check at line 60 failing). -/
def noHits (pd : Option ProviderData) : Bool :=
  match pd with
  | none => true
  | some d => d.hits.isNone

/-- One rendered block of the PDF document for a recipe (lines 121-146):
the fields as interpolated into the fixed template. -/
structure RenderedRecipe where
  title : Str
  caloriesText : Str
  servingSize : Option ℚ
  dietLabelsText : Str
  healthLabelsText : Str
  ingredients : List Str
deriving DecidableEq

/-- JS `Number.prototype.toFixed(2)` on the modelled numbers: two decimal
digits, ties away from zero; the non-finite values print their names. -/
def toFixed2 : JsNumber → Str
  | .nan => String.toList "NaN"
  | .posInf => String.toList "Infinity"
  | .negInf => String.toList "-Infinity"
  | .num q =>
    let sign : Str := if q < 0 then ['-'] else []
    let n : ℕ := (⌊|q| * 100 + 1 / 2⌋).toNat
    let frac := n % 100
    sign ++ Nat.toDigits 10 (n / 100) ++
      '.' :: (if frac < 10 then '0' :: Nat.toDigits 10 frac else Nat.toDigits 10 frac)

/-- Rendering one recipe into its document block (lines 122-145):
`recipe.caloriesPerServing.toFixed(2)` throws when the field is null,
otherwise the template is filled in. -/
def renderRecipe (r : Recipe) : Except JsError RenderedRecipe :=
  match r.caloriesPerServing with
  | none => .error .typeError
  | some cal =>
    .ok
      { title := r.title
        caloriesText := toFixed2 cal
        servingSize := r.servingSize
        dietLabelsText := jsJoin (String.toList ", ") r.dietLabels
        healthLabelsText := jsJoin (String.toList ", ") r.healthLabels
        ingredients := r.ingredients }

/-- The outcome of the print route. -/
inductive PrintResult
  | badRequest (msg : Str)
  | document (blocks : List RenderedRecipe)
  | thrown
deriving DecidableEq

/-- The `/print` route handler (recipeController.js lines 107-149):
reject an absent or empty recipe list with a 400 before any document
output, otherwise walk the template over every recipe. -/
def printHandler (body : Option (List Recipe)) : PrintResult :=
  match body with
  | none => .badRequest (String.toList "No recipes provided")
  | some recipes =>
    if recipes.isEmpty then .badRequest (String.toList "No recipes provided")
    else
      match mapExcept renderRecipe recipes with
      | .ok blocks => .document blocks
      | .error _ => .thrown

/-! ### Character-level lemmas about the ASCII case maps -/

theorem toNat_ofNat_valid (n : Nat) (h : n.isValidChar) : (Char.ofNat n).toNat = n := by
  simp [Char.ofNat, h, Char.ofNatAux, Char.toNat]
  rfl

theorem char_toLower_toUpper (c : Char) : c.toUpper.toLower = c.toLower := by
  unfold Char.toUpper Char.toLower
  by_cases h : c.toNat ≥ 97 ∧ c.toNat ≤ 122
  · rw [if_pos h]
    have hv : (Char.ofNat (c.toNat - 32)).toNat = c.toNat - 32 :=
      toNat_ofNat_valid _ (Or.inl (by omega))
    rw [hv]
    rw [if_pos (show c.toNat - 32 ≥ 65 ∧ c.toNat - 32 ≤ 90 by omega)]
    rw [if_neg (show ¬ (c.toNat ≥ 65 ∧ c.toNat ≤ 90) by omega)]
    have h4 : c.toNat - 32 + 32 = c.toNat := by omega
    rw [h4, Char.ofNat_toNat]
  · rw [if_neg h]

theorem toLower_eq (c : Char) :
    c.toLower = if c.toNat ≥ 65 ∧ c.toNat ≤ 90 then Char.ofNat (c.toNat + 32) else c := rfl

theorem toUpper_eq (c : Char) :
    c.toUpper = if c.toNat ≥ 97 ∧ c.toNat ≤ 122 then Char.ofNat (c.toNat - 32) else c := rfl

theorem char_toLower_toLower (c : Char) : c.toLower.toLower = c.toLower := by
  rw [toLower_eq c]
  by_cases h : c.toNat ≥ 65 ∧ c.toNat ≤ 90
  · rw [if_pos h, toLower_eq (Char.ofNat (c.toNat + 32)),
      toNat_ofNat_valid _ (Or.inl (by omega))]
    rw [if_neg (show ¬ (c.toNat + 32 ≥ 65 ∧ c.toNat + 32 ≤ 90) by omega)]
  · rw [if_neg h, toLower_eq c, if_neg h]

theorem char_toUpper_toUpper (c : Char) : c.toUpper.toUpper = c.toUpper := by
  rw [toUpper_eq c]
  by_cases h : c.toNat ≥ 97 ∧ c.toNat ≤ 122
  · rw [if_pos h, toUpper_eq (Char.ofNat (c.toNat - 32)),
      toNat_ofNat_valid _ (Or.inl (by omega))]
    rw [if_neg (show ¬ (c.toNat - 32 ≥ 97 ∧ c.toNat - 32 ≤ 122) by omega)]
  · rw [if_neg h, toUpper_eq c, if_neg h]

theorem char_toUpper_ne_hyphen {c : Char} (h : c ≠ '-') : c.toUpper ≠ '-' := by
  rw [toUpper_eq c]
  by_cases hc : c.toNat ≥ 97 ∧ c.toNat ≤ 122
  · rw [if_pos hc]
    intro heq
    have h45 := congrArg Char.toNat heq
    rw [toNat_ofNat_valid _ (Or.inl (by omega))] at h45
    rw [show ('-').toNat = 45 from rfl] at h45
    omega
  · rw [if_neg hc]
    exact h

theorem char_toLower_ne_hyphen {c : Char} (h : c ≠ '-') : c.toLower ≠ '-' := by
  rw [toLower_eq c]
  by_cases hc : c.toNat ≥ 65 ∧ c.toNat ≤ 90
  · rw [if_pos hc]
    intro heq
    have h45 := congrArg Char.toNat heq
    rw [toNat_ofNat_valid _ (Or.inl (by omega))] at h45
    rw [show ('-').toNat = 45 from rfl] at h45
    omega
  · rw [if_neg hc]
    exact h

/-! ### Split / join lemmas -/

theorem jsSplitAux_nil (sep : Char) (acc : Str) :
    jsSplitAux sep [] acc = [acc.reverse] := rfl

theorem jsSplitAux_cons (sep c : Char) (rest acc : Str) :
    jsSplitAux sep (c :: rest) acc =
      if c = sep then acc.reverse :: jsSplitAux sep rest []
      else jsSplitAux sep rest (c :: acc) := rfl

theorem jsSplitAux_ne_nil (sep : Char) : ∀ (s acc : Str), jsSplitAux sep s acc ≠ []
  | [], _ => by simp [jsSplitAux_nil]
  | c :: rest, acc => by
    rw [jsSplitAux_cons]
    by_cases h : c = sep
    · simp [h]
    · rw [if_neg h]
      exact jsSplitAux_ne_nil sep rest (c :: acc)

theorem jsSplit_ne_nil (sep : Char) (s : Str) : jsSplit sep s ≠ [] :=
  jsSplitAux_ne_nil sep s []

theorem jsJoin_cons_ne_nil (sep : Str) (w : Str) {ws : List Str} (h : ws ≠ []) :
    jsJoin sep (w :: ws) = w ++ sep ++ jsJoin sep ws := by
  cases ws with
  | nil => exact absurd rfl h
  | cons v vs => rfl

theorem jsJoin_jsSplitAux (sep : Char) :
    ∀ (s acc : Str), jsJoin [sep] (jsSplitAux sep s acc) = acc.reverse ++ s
  | [], acc => by simp [jsSplitAux_nil, jsJoin]
  | c :: rest, acc => by
    rw [jsSplitAux_cons]
    by_cases h : c = sep
    · rw [if_pos h, jsJoin_cons_ne_nil [sep] _ (jsSplitAux_ne_nil sep rest []),
        jsJoin_jsSplitAux sep rest []]
      simp [h]
    · rw [if_neg h, jsJoin_jsSplitAux sep rest (c :: acc)]
      simp

theorem jsJoin_jsSplit (sep : Char) (s : Str) : jsJoin [sep] (jsSplit sep s) = s := by
  simpa using jsJoin_jsSplitAux sep s []

theorem not_mem_of_mem_jsSplitAux (sep : Char) :
    ∀ (s acc w : Str), sep ∉ acc → w ∈ jsSplitAux sep s acc → sep ∉ w
  | [], acc, w, hacc, hw => by
    simp [jsSplitAux_nil] at hw
    subst hw
    simpa using hacc
  | c :: rest, acc, w, hacc, hw => by
    rw [jsSplitAux_cons] at hw
    by_cases h : c = sep
    · rw [if_pos h] at hw
      rcases List.mem_cons.mp hw with h1 | h2
      · subst h1
        simpa using hacc
      · exact not_mem_of_mem_jsSplitAux sep rest [] w (by simp) h2
    · rw [if_neg h] at hw
      refine not_mem_of_mem_jsSplitAux sep rest (c :: acc) w ?_ hw
      intro hmem
      rcases List.mem_cons.mp hmem with h1 | h2
      · exact h h1.symm
      · exact hacc h2
  termination_by s => s.length

theorem not_mem_jsSplit {sep : Char} {s w : Str} (h : w ∈ jsSplit sep s) : sep ∉ w :=
  not_mem_of_mem_jsSplitAux sep s [] w (by simp) h

theorem jsSplitAux_no_sep (sep : Char) :
    ∀ (w acc : Str), sep ∉ w → jsSplitAux sep w acc = [acc.reverse ++ w]
  | [], acc, _ => by simp [jsSplitAux_nil]
  | c :: rest, acc, h => by
    have hc : ¬ c = sep := fun hcs => h (hcs ▸ List.mem_cons_self c rest)
    rw [jsSplitAux_cons, if_neg hc,
      jsSplitAux_no_sep sep rest (c :: acc) (fun hm => h (List.mem_cons_of_mem c hm))]
    simp

theorem jsSplitAux_append_sep (sep : Char) :
    ∀ (w t acc : Str), sep ∉ w →
      jsSplitAux sep (w ++ sep :: t) acc = (acc.reverse ++ w) :: jsSplitAux sep t []
  | [], t, acc, _ => by
    rw [List.nil_append, jsSplitAux_cons, if_pos rfl]
    simp
  | c :: rest, t, acc, h => by
    have hc : ¬ c = sep := fun hcs => h (hcs ▸ List.mem_cons_self c rest)
    rw [List.cons_append, jsSplitAux_cons, if_neg hc,
      jsSplitAux_append_sep sep rest t (c :: acc) (fun hm => h (List.mem_cons_of_mem c hm))]
    simp

theorem jsSplit_jsJoin (sep : Char) :
    ∀ (ps : List Str), ps ≠ [] → (∀ w ∈ ps, sep ∉ w) →
      jsSplit sep (jsJoin [sep] ps) = ps
  | [], h, _ => absurd rfl h
  | [w], _, hw => by
    simpa [jsSplit, jsJoin] using jsSplitAux_no_sep sep w [] (hw w (by simp))
  | w :: v :: vs, _, hw => by
    rw [jsJoin_cons_ne_nil [sep] w (by simp), List.append_assoc, List.singleton_append]
    unfold jsSplit
    rw [jsSplitAux_append_sep sep w _ [] (hw w (by simp))]
    have := jsSplit_jsJoin sep (v :: vs) (by simp)
      (fun u hu => hw u (List.mem_cons_of_mem w hu))
    unfold jsSplit at this
    rw [this]
    simp

theorem map_jsJoin (f : Char → Char) (sep : Str) :
    ∀ ps : List Str, (jsJoin sep ps).map f = jsJoin (sep.map f) (ps.map (List.map f))
  | [] => rfl
  | [w] => rfl
  | w :: v :: vs => by
    rw [jsJoin_cons_ne_nil sep w (by simp), List.map_append, List.map_append,
      map_jsJoin f sep (v :: vs)]
    rw [List.map_cons, List.map_cons,
      jsJoin_cons_ne_nil (sep.map f) (w.map f) (by simp)]
    rfl

/-! ### Normalizer lemmas (the ASCII fragment of the case maps) -/

theorem char_toUpper_ascii {c : Char} (h : c.toNat < 128) : c.toUpper.toNat < 128 := by
  rw [toUpper_eq]
  by_cases h1 : c.toNat ≥ 97 ∧ c.toNat ≤ 122
  · rw [if_pos h1, toNat_ofNat_valid _ (Or.inl (by omega))]
    omega
  · rw [if_neg h1]
    exact h

theorem char_toLower_ascii {c : Char} (h : c.toNat < 128) : c.toLower.toNat < 128 := by
  rw [toLower_eq]
  by_cases h1 : c.toNat ≥ 65 ∧ c.toNat ≤ 90
  · rw [if_pos h1, toNat_ofNat_valid _ (Or.inl (by omega))]
    omega
  · rw [if_neg h1]
    exact h

theorem jsUpperChar_ascii {c : Char} (h : c.toNat < 128) : jsUpperChar c = [c.toUpper] := by
  unfold jsUpperChar
  by_cases h1 : c.toNat ≥ 97 ∧ c.toNat ≤ 122
  · rw [if_pos h1, toUpper_eq, if_pos h1]
  · rw [if_neg h1, if_neg (show ¬ c.toNat = 181 by omega),
      if_neg (show ¬ c.toNat = 223 by omega),
      if_neg (show ¬ (c.toNat ≥ 224 ∧ c.toNat ≤ 254 ∧ c.toNat ≠ 247) by omega),
      if_neg (show ¬ c.toNat = 255 by omega), toUpper_eq, if_neg h1]

theorem jsLowerChar_ascii {c : Char} (h : c.toNat < 128) : jsLowerChar c = [c.toLower] := by
  unfold jsLowerChar
  by_cases h1 : c.toNat ≥ 65 ∧ c.toNat ≤ 90
  · rw [if_pos h1, toLower_eq, if_pos h1]
  · rw [if_neg h1,
      if_neg (show ¬ (c.toNat ≥ 192 ∧ c.toNat ≤ 222 ∧ c.toNat ≠ 215) by omega),
      if_neg (show ¬ c.toNat = 376 by omega),
      if_neg (show ¬ c.toNat = 924 by omega), toLower_eq, if_neg h1]

theorem asciiOnly_iff {s : Str} : asciiOnly s = true ↔ ∀ c ∈ s, c.toNat < 128 := by
  simp [asciiOnly]

theorem jsToLowerCase_cons (c : Char) (rest : Str) :
    jsToLowerCase (c :: rest) = jsLowerChar c ++ jsToLowerCase rest := rfl

theorem jsToLowerCase_ascii {s : Str} (h : asciiOnly s = true) :
    jsToLowerCase s = s.map Char.toLower := by
  induction s with
  | nil => rfl
  | cons c rest ih =>
    have hc : c.toNat < 128 := asciiOnly_iff.mp h c (by simp)
    have hrest : asciiOnly rest = true := by
      rw [asciiOnly_iff] at h ⊢
      exact fun x hx => h x (List.mem_cons_of_mem c hx)
    rw [jsToLowerCase_cons, jsLowerChar_ascii hc, ih hrest, List.map_cons]
    rfl

/-- The restriction of one capitalized segment to ASCII input, where both
JS case maps are single-character: used only to factor the proofs. -/
def asciiCapitalizeWord : Str → Str
  | [] => []
  | c :: rest => c.toUpper :: rest.map Char.toLower

theorem capitalizeWord_ascii {w : Str} (h : asciiOnly w = true) :
    capitalizeWord w = asciiCapitalizeWord w := by
  cases w with
  | nil => rfl
  | cons c rest =>
    have hc : c.toNat < 128 := asciiOnly_iff.mp h c (by simp)
    have hrest : asciiOnly rest = true := by
      rw [asciiOnly_iff] at h ⊢
      exact fun x hx => h x (List.mem_cons_of_mem c hx)
    show jsUpperChar c ++ jsToLowerCase rest = c.toUpper :: rest.map Char.toLower
    rw [jsUpperChar_ascii hc, jsToLowerCase_ascii hrest]
    rfl

theorem asciiCapitalizeWord_ascii {w : Str} (h : asciiOnly w = true) :
    asciiOnly (asciiCapitalizeWord w) = true := by
  cases w with
  | nil => rfl
  | cons c rest =>
    rw [asciiOnly_iff] at h ⊢
    intro x hx
    rcases List.mem_cons.mp hx with rfl | hx2
    · exact char_toUpper_ascii (h c (by simp))
    · rcases List.mem_map.mp hx2 with ⟨u, hu, rfl⟩
      exact char_toLower_ascii (h u (List.mem_cons_of_mem c hu))

theorem asciiCapitalizeWord_no_hyphen {w : Str} (h : '-' ∉ w) :
    '-' ∉ asciiCapitalizeWord w := by
  cases w with
  | nil => simp [asciiCapitalizeWord]
  | cons c rest =>
    intro hmem
    simp only [asciiCapitalizeWord, List.mem_cons] at hmem
    rcases hmem with h1 | h2
    · exact char_toUpper_ne_hyphen (fun hc => h (hc ▸ List.mem_cons_self c rest)) h1.symm
    · rcases List.mem_map.mp h2 with ⟨x, hx, hfx⟩
      exact char_toLower_ne_hyphen
        (fun hc => h (hc ▸ List.mem_cons_of_mem c hx)) hfx

theorem asciiCapitalizeWord_idem (w : Str) :
    asciiCapitalizeWord (asciiCapitalizeWord w) = asciiCapitalizeWord w := by
  cases w with
  | nil => rfl
  | cons c rest =>
    simp only [asciiCapitalizeWord, List.map_map]
    rw [char_toUpper_toUpper]
    congr 1
    exact List.map_congr_left fun x _ => char_toLower_toLower x

theorem map_toLower_asciiCapitalizeWord (w : Str) :
    (asciiCapitalizeWord w).map Char.toLower = w.map Char.toLower := by
  cases w with
  | nil => rfl
  | cons c rest =>
    simp only [asciiCapitalizeWord, List.map_cons, List.map_map]
    rw [char_toLower_toUpper]
    congr 1
    exact List.map_congr_left fun x _ => char_toLower_toLower x

theorem all_mem_jsSplitAux (p : Char → Prop) (sep : Char) :
    ∀ (s acc w : Str), (∀ x ∈ s, p x) → (∀ x ∈ acc, p x) →
      w ∈ jsSplitAux sep s acc → ∀ x ∈ w, p x
  | [], acc, w, _, hacc, hw => by
    simp [jsSplitAux_nil] at hw
    subst hw
    intro x hx
    exact hacc x (List.mem_reverse.mp hx)
  | c :: rest, acc, w, hs, hacc, hw => by
    rw [jsSplitAux_cons] at hw
    by_cases h : c = sep
    · rw [if_pos h] at hw
      rcases List.mem_cons.mp hw with h1 | h2
      · subst h1
        intro x hx
        exact hacc x (List.mem_reverse.mp hx)
      · exact all_mem_jsSplitAux p sep rest [] w
          (fun x hx => hs x (List.mem_cons_of_mem c hx)) (by simp) h2
    · rw [if_neg h] at hw
      refine all_mem_jsSplitAux p sep rest (c :: acc) w
        (fun x hx => hs x (List.mem_cons_of_mem c hx)) ?_ hw
      intro x hx
      rcases List.mem_cons.mp hx with h1 | hx2
      · rw [h1]
        exact hs c (List.mem_cons_self c rest)
      · exact hacc x hx2
  termination_by s => s.length

theorem mem_jsSplit_ascii {s w : Str} (hs : asciiOnly s = true)
    (hw : w ∈ jsSplit '-' s) : asciiOnly w = true := by
  rw [asciiOnly_iff] at hs ⊢
  exact all_mem_jsSplitAux (fun c => c.toNat < 128) '-' s [] w hs (by simp) hw

theorem capitalizeWords_ascii {s : Str} (h : asciiOnly s = true) :
    capitalizeWords s = jsJoin ['-'] ((jsSplit '-' s).map asciiCapitalizeWord) := by
  unfold capitalizeWords
  congr 1
  exact List.map_congr_left fun w hw => capitalizeWord_ascii (mem_jsSplit_ascii h hw)

theorem jsToLowerCase_append (a b : Str) :
    jsToLowerCase (a ++ b) = jsToLowerCase a ++ jsToLowerCase b := by
  unfold jsToLowerCase
  exact List.flatMap_append a b jsLowerChar

theorem jsToLowerCase_jsJoin (sep : Str) :
    ∀ ps : List Str, jsToLowerCase (jsJoin sep ps) =
      jsJoin (jsToLowerCase sep) (ps.map jsToLowerCase)
  | [] => rfl
  | [w] => rfl
  | w :: v :: vs => by
    rw [jsJoin_cons_ne_nil sep w (by simp), jsToLowerCase_append, jsToLowerCase_append,
      jsToLowerCase_jsJoin sep (v :: vs)]
    rw [List.map_cons, List.map_cons,
      jsJoin_cons_ne_nil (jsToLowerCase sep) (jsToLowerCase w) (by simp)]
    rfl

theorem jsToLowerCase_capitalizeWords_ascii {s : Str} (h : asciiOnly s = true) :
    jsToLowerCase (capitalizeWords s) = jsToLowerCase s := by
  rw [capitalizeWords_ascii h, jsToLowerCase_jsJoin, List.map_map]
  have hsep : jsToLowerCase ['-'] = ['-'] := by decide
  rw [hsep]
  have hpt : (jsSplit '-' s).map (jsToLowerCase ∘ asciiCapitalizeWord) =
      (jsSplit '-' s).map jsToLowerCase := by
    apply List.map_congr_left
    intro w hw
    have hwa := mem_jsSplit_ascii h hw
    show jsToLowerCase (asciiCapitalizeWord w) = jsToLowerCase w
    rw [jsToLowerCase_ascii (asciiCapitalizeWord_ascii hwa),
      map_toLower_asciiCapitalizeWord, ← jsToLowerCase_ascii hwa]
  rw [hpt]
  have h3 := jsToLowerCase_jsJoin ['-'] (jsSplit '-' s)
  rw [hsep] at h3
  rw [← h3, jsJoin_jsSplit]

/-- Normalization applies `capitalizeWords` to each raw token, preserving
their number and order. -/
theorem normalizeParam_eq_map (p : QueryParam) :
    normalizeParam p = (rawTokens p).map capitalizeWords := by
  cases p <;> rfl

/-! ### Mapping-step lemmas -/

/-- A hit whose `dietLabels` or `healthLabels` array is absent makes the
mapping throw. -/
theorem mapHit_error_of_missing_labels {h : ProviderHit}
    (hm : (h.recipe.dietLabels.isNone || h.recipe.healthLabels.isNone) = true) :
    mapHit h = .error .typeError := by
  unfold mapHit
  cases hd : h.recipe.dietLabels with
  | none => rfl
  | some diets =>
    cases hh : h.recipe.healthLabels with
    | none => rfl
    | some healths => simp [hd, hh] at hm

/-- A JS-style map over a list throws as soon as some element makes the
element function throw. -/
theorem mapExcept_error_of_any {f : α → Except ε β} {p : α → Bool}
    (hp : ∀ x, p x = true → ∃ e, f x = .error e) :
    ∀ l : List α, l.any p = true → ∃ e, mapExcept f l = .error e := by
  intro l
  induction l with
  | nil => intro hl; simp at hl
  | cons x xs ih =>
    intro hl
    unfold mapExcept
    cases hfx : f x with
    | error e => exact ⟨e, rfl⟩
    | ok y =>
      have hx : p x = false := by
        by_contra hpx
        obtain ⟨e, he⟩ := hp x (by simpa using hpx)
        rw [hfx] at he
        exact Except.noConfusion he
      have hxs : xs.any p = true := by
        rcases List.any_eq_true.mp hl with ⟨u, hu, hpu⟩
        rcases List.mem_cons.mp hu with rfl | hu2
        · rw [hx] at hpu; exact absurd hpu (by simp)
        · exact List.any_eq_true.mpr ⟨u, hu2, hpu⟩
      obtain ⟨e, he⟩ := ih hxs
      rw [he]
      exact ⟨e, rfl⟩

/-- When the mapping of a hit succeeds, both label arrays were present in
the source and the mapped arrays are their Title-Case images (so the
apparent `|| []` defaulting never supplies the value). -/
theorem mapHit_ok_labels {h : ProviderHit} {r : Recipe}
    (hok : mapHit h = .ok r) :
    ∃ dl hl, h.recipe.dietLabels = some dl ∧ h.recipe.healthLabels = some hl ∧
      r.dietLabels = dl.map capitalizeWords ∧ r.healthLabels = hl.map capitalizeWords := by
  unfold mapHit at hok
  cases hd : h.recipe.dietLabels with
  | none => rw [hd] at hok; exact Except.noConfusion hok
  | some diets =>
    cases hh : h.recipe.healthLabels with
    | none => rw [hd, hh] at hok; exact Except.noConfusion hok
    | some healths =>
      rw [hd, hh] at hok
      refine ⟨diets, healths, rfl, rfl, ?_, ?_⟩ <;>
        · have := Except.ok.inj hok
          subst this
          rfl

/-! ### Claim theorems -/

/-- C7 counterexample: for the token consisting of the single character
sharp s (U+00DF), JS uppercases the first character to the two-letter
"SS", so one application gives "SS" but a second gives "Ss" — store-form
normalization is not idempotent on every input token string. -/
theorem capitalizeWords_not_idempotent_on_sharp_s :
    capitalizeWords (capitalizeWords ['ß']) ≠ capitalizeWords ['ß'] := by
  decide

/-- C7 amended: for every input token string made of ASCII characters
(where the JS case conversions are the simple single-character maps),
normalization to store form is idempotent: applying `capitalizeWords`
twice gives the same result as applying it once. -/
theorem capitalizeWords_idempotent_ascii (s : Str) (h : asciiOnly s = true) :
    capitalizeWords (capitalizeWords s) = capitalizeWords s := by
  rw [capitalizeWords_ascii h]
  unfold capitalizeWords
  rw [jsSplit_jsJoin '-' ((jsSplit '-' s).map asciiCapitalizeWord)
      (by simpa using jsSplit_ne_nil '-' s)
      (by
        intro w hw
        rcases List.mem_map.mp hw with ⟨u, hu, rfl⟩
        exact asciiCapitalizeWord_no_hyphen (not_mem_jsSplit hu))]
  rw [List.map_map]
  congr 1
  apply List.map_congr_left
  intro w hw
  show capitalizeWord (asciiCapitalizeWord w) = asciiCapitalizeWord w
  rw [capitalizeWord_ascii (asciiCapitalizeWord_ascii (mem_jsSplit_ascii h hw)),
    asciiCapitalizeWord_idem]

/-- Witness for C7 (amended): a concrete ASCII token is a fixed point
after one application. -/
theorem capitalizeWords_idempotent_ascii_witness :
    capitalizeWords (capitalizeWords (String.toList "low-carb")) =
      capitalizeWords (String.toList "low-carb") :=
  capitalizeWords_idempotent_ascii (String.toList "low-carb") (by decide)

/-- C8: a rendering request whose recipe list is empty or absent fails
with the bad-request status and the descriptive message, and no document
bytes are produced. -/
theorem printHandler_empty_badRequest (body : Option (List Recipe))
    (h : body = none ∨ body = some []) :
    printHandler body = .badRequest (String.toList "No recipes provided") ∧
    ∀ blocks, printHandler body ≠ .document blocks := by
  rcases h with rfl | rfl
  · exact ⟨rfl, fun blocks => by simp [printHandler]⟩
  · exact ⟨rfl, fun blocks => by simp [printHandler]⟩

/-- Witness for C8: the concrete empty-body request is rejected. -/
theorem printHandler_empty_badRequest_witness :
    printHandler none = .badRequest (String.toList "No recipes provided") :=
  (printHandler_empty_badRequest none (Or.inl rfl)).1

/-- A provider hit whose recipe has calories but no yield value (and empty
label arrays, so the mapping succeeds). -/
def yieldMissingHit : ProviderHit :=
  { recipe :=
    { label := String.toList "Pasta"
      image := []
      source := none
      url := none
      dietLabels := some []
      healthLabels := some []
      ingredientLines := none
      yield := none
      calories := some 100
      totalTime := none
      cuisineType := none
      mealType := none
      dishType := none
      totalNutrients := none } }

/-- C3 evidence: the mapping divides `calories` by the absent yield, so the
mapped record carries `caloriesPerServing = NaN` instead of leaving the
field unset; the guard checks only `calories`, not `servingSize`. -/
theorem caloriesPerServing_nan_on_missing_yield :
    ∃ r : Recipe, mapHit yieldMissingHit = Except.ok r ∧
      r.caloriesPerServing = some JsNumber.nan ∧ r.servingSize = none :=
  ⟨_, rfl, rfl, rfl⟩

/-- C2: when the store has fewer than 12 matches and the provider response
lacks a `hits` container, the operation fails with the distinct 404
"No recipes found" and the store is left unmodified. -/
theorem getRecipes_noHits_notFound (dietQ healthQ : QueryParam)
    (store : List StoredDoc) (pd : Option ProviderData)
    (shuffle : List Recipe → List Recipe)
    (hlen : (storeMatches dietQ healthQ store).length < 12)
    (hnh : noHits pd = true) :
    (getRecipes dietQ healthQ store pd shuffle).response =
      .error 404 (String.toList "No recipes found") ∧
    (getRecipes dietQ healthQ store pd shuffle).store = store := by
  unfold getRecipes
  rw [if_pos hlen]
  unfold getRecipesFallback
  cases pd with
  | none => exact ⟨rfl, rfl⟩
  | some d =>
    cases hh : d.hits with
    | none =>
      simp only [hh]
      exact ⟨rfl, rfl⟩
    | some hits => simp [noHits, hh] at hnh

/-- Witness for C2: empty store, provider resolving to nothing. -/
theorem getRecipes_noHits_notFound_witness :
    (getRecipes .missing .missing [] none id).response =
      .error 404 (String.toList "No recipes found") ∧
    (getRecipes .missing .missing [] none id).store = [] :=
  getRecipes_noHits_notFound .missing .missing [] none id (by decide) (by decide)

/-- C10: when the store lookup already yields at least 12 matches, the run
performs no store write at all: the store afterwards equals the store
before. -/
theorem getRecipes_sufficient_store_frame (dietQ healthQ : QueryParam)
    (store : List StoredDoc) (pd : Option ProviderData)
    (shuffle : List Recipe → List Recipe)
    (h : 12 ≤ (storeMatches dietQ healthQ store).length) :
    (getRecipes dietQ healthQ store pd shuffle).store = store := by
  unfold getRecipes
  rw [if_neg (by omega)]
  rfl

/-- A minimal recipe record used to populate concrete stores in witnesses. -/
def sampleRecipe : Recipe :=
  { title := String.toList "Toast"
    image := []
    source := String.toList "Unknown"
    instructionsUrl := String.toList "No URL available"
    dietLabels := []
    healthLabels := []
    ingredients := []
    servingSize := none
    caloriesPerServing := none
    totalTime := none
    cuisineType := []
    mealType := []
    dishType := []
    totalNutrients := [] }

/-- A stored document wrapping `sampleRecipe`. -/
def sampleDoc : StoredDoc := { body := sampleRecipe, mongoId := 7, mongoVer := 0 }

/-- Witness for C10: a store of 12 unconstrained matches is returned
unchanged. -/
theorem getRecipes_sufficient_store_frame_witness :
    (getRecipes .missing .missing (List.replicate 12 sampleDoc)
        (some { hits := some [] }) id).store = List.replicate 12 sampleDoc :=
  getRecipes_sufficient_store_frame .missing .missing (List.replicate 12 sampleDoc)
    (some { hits := some [] }) id (by decide)

/-- C1: the store's sufficiency (≥ 12 matches) decides everything: with
enough matches the provider is never invoked and every returned record is
one of the store matches; with fewer, exactly one provider call happens
and every record of a successful response comes from the provider's
mapped output (which also replaces the store's matches — never a merge). -/
theorem getRecipes_provider_gating (dietQ healthQ : QueryParam)
    (store : List StoredDoc) (pd : Option ProviderData)
    (shuffle : List Recipe → List Recipe)
    (hsh : ∀ l, (shuffle l).Perm l) :
    (12 ≤ (storeMatches dietQ healthQ store).length →
      (getRecipes dietQ healthQ store pd shuffle).providerCalls = 0 ∧
      ∀ recs, (getRecipes dietQ healthQ store pd shuffle).response = .json recs →
        ∀ r ∈ recs, r ∈ storeMatches dietQ healthQ store) ∧
    ((storeMatches dietQ healthQ store).length < 12 →
      (getRecipes dietQ healthQ store pd shuffle).providerCalls = 1 ∧
      ∀ recs, (getRecipes dietQ healthQ store pd shuffle).response = .json recs →
        ∃ d hits fetched, pd = some d ∧ d.hits = some hits ∧
          mapExcept mapHit (hits.take 100) = .ok fetched ∧
          (getRecipes dietQ healthQ store pd shuffle).store = insertMany store fetched ∧
          ∀ r ∈ recs, r ∈ fetched) := by
  constructor
  · intro hge
    have hg : getRecipes dietQ healthQ store pd shuffle =
        storeResult dietQ healthQ store shuffle := by
      unfold getRecipes
      exact if_neg (by omega)
    rw [hg]
    refine ⟨rfl, fun recs hr r hmem => ?_⟩
    have hr' : HttpResponse.json ((shuffle (storeMatches dietQ healthQ store)).take 12) =
        HttpResponse.json recs := hr
    rw [← HttpResponse.json.inj hr'] at hmem
    exact ((hsh _).mem_iff).mp (List.take_subset _ _ hmem)
  · intro hlt
    have hg : getRecipes dietQ healthQ store pd shuffle =
        getRecipesFallback dietQ healthQ store pd shuffle := by
      unfold getRecipes
      exact if_pos hlt
    rw [hg]
    cases pd with
    | none =>
      refine ⟨rfl, fun recs hr => ?_⟩
      exact absurd (show HttpResponse.error 404 (String.toList "No recipes found") =
        .json recs from hr) (by simp)
    | some d =>
      obtain ⟨dhits⟩ := d
      cases dhits with
      | none =>
        refine ⟨rfl, fun recs hr => ?_⟩
        exact absurd (show HttpResponse.error 404 (String.toList "No recipes found") =
          .json recs from hr) (by simp)
      | some hits =>
        have hred : getRecipesFallback dietQ healthQ store (some ⟨some hits⟩) shuffle =
            mappedResult dietQ healthQ store shuffle (mapExcept mapHit (hits.take 100)) := rfl
        rw [hred]
        cases hm : mapExcept mapHit (hits.take 100) with
        | error e =>
          refine ⟨rfl, fun recs hr => ?_⟩
          exact absurd (show HttpResponse.error 500 (String.toList "Internal Server Error") =
            .json recs from hr) (by simp)
        | ok fetched =>
          refine ⟨rfl, fun recs hr => ⟨⟨some hits⟩, hits, fetched, rfl, rfl, hm, rfl, ?_⟩⟩
          intro r hmem
          have hr' : HttpResponse.json ((shuffle fetched).take 12) =
              HttpResponse.json recs := hr
          rw [← HttpResponse.json.inj hr'] at hmem
          exact ((hsh _).mem_iff).mp (List.take_subset _ _ hmem)

/-- Witness for C1: on an empty store the fallback runs and makes exactly
one provider call. -/
theorem getRecipes_provider_gating_witness :
    (getRecipes .missing .missing [] (some { hits := some [] }) id).providerCalls = 1 :=
  ((getRecipes_provider_gating .missing .missing [] (some { hits := some [] }) id
    (fun l => List.Perm.refl l)).2 (by decide)).1

/-- C4: the retrieval response always has size `min 12 (working set)`, and
every returned record belongs to the working set — the sufficient store
matches on one path, the freshly mapped provider records on the other. -/
theorem getRecipes_sample_size (dietQ healthQ : QueryParam)
    (store : List StoredDoc) (pd : Option ProviderData)
    (shuffle : List Recipe → List Recipe)
    (hsh : ∀ l, (shuffle l).Perm l) :
    (12 ≤ (storeMatches dietQ healthQ store).length →
      ∀ recs, (getRecipes dietQ healthQ store pd shuffle).response = .json recs →
        recs.length = min 12 (storeMatches dietQ healthQ store).length ∧
        ∀ r ∈ recs, r ∈ storeMatches dietQ healthQ store) ∧
    ((storeMatches dietQ healthQ store).length < 12 →
      ∀ recs, (getRecipes dietQ healthQ store pd shuffle).response = .json recs →
        ∃ d hits fetched, pd = some d ∧ d.hits = some hits ∧
          mapExcept mapHit (hits.take 100) = .ok fetched ∧
          recs.length = min 12 fetched.length ∧
          ∀ r ∈ recs, r ∈ fetched) := by
  constructor
  · intro hge recs hr
    have hg : getRecipes dietQ healthQ store pd shuffle =
        storeResult dietQ healthQ store shuffle := by
      unfold getRecipes
      exact if_neg (by omega)
    rw [hg] at hr
    have hr' : HttpResponse.json ((shuffle (storeMatches dietQ healthQ store)).take 12) =
        HttpResponse.json recs := hr
    have hrecs := HttpResponse.json.inj hr'
    subst hrecs
    refine ⟨?_, fun r hmem => ((hsh _).mem_iff).mp (List.take_subset _ _ hmem)⟩
    rw [List.length_take, (hsh _).length_eq]
  · intro hlt recs hr
    have hg : getRecipes dietQ healthQ store pd shuffle =
        getRecipesFallback dietQ healthQ store pd shuffle := by
      unfold getRecipes
      exact if_pos hlt
    rw [hg] at hr
    cases pd with
    | none => exact absurd (show HttpResponse.error 404 (String.toList "No recipes found") =
        .json recs from hr) (by simp)
    | some d =>
      obtain ⟨dhits⟩ := d
      cases dhits with
      | none =>
        exact absurd (show HttpResponse.error 404 (String.toList "No recipes found") =
          .json recs from hr) (by simp)
      | some hits =>
        have hred : getRecipesFallback dietQ healthQ store (some ⟨some hits⟩) shuffle =
            mappedResult dietQ healthQ store shuffle (mapExcept mapHit (hits.take 100)) := rfl
        rw [hred] at hr
        cases hm : mapExcept mapHit (hits.take 100) with
        | error e =>
          rw [hm] at hr
          exact absurd (show HttpResponse.error 500 (String.toList "Internal Server Error") =
            .json recs from hr) (by simp)
        | ok fetched =>
          rw [hm] at hr
          have hr' : HttpResponse.json ((shuffle fetched).take 12) =
              HttpResponse.json recs := hr
          refine ⟨⟨some hits⟩, hits, fetched, rfl, rfl, hm, ?_, ?_⟩
          · rw [← HttpResponse.json.inj hr', List.length_take, (hsh _).length_eq]
          · intro r hmem
            rw [← HttpResponse.json.inj hr'] at hmem
            exact ((hsh _).mem_iff).mp (List.take_subset _ _ hmem)

/-- Witness for C4: with 12 matching documents in the store, the response
is exactly those 12 records. -/
theorem getRecipes_sample_size_witness :
    ((storeMatches QueryParam.missing QueryParam.missing
        (List.replicate 12 sampleDoc)).take 12).length =
      min 12 (storeMatches QueryParam.missing QueryParam.missing
        (List.replicate 12 sampleDoc)).length :=
  ((getRecipes_sample_size .missing .missing (List.replicate 12 sampleDoc) none id
      (fun l => List.Perm.refl l)).1 (by decide) _ (by decide)).1

/-- C5: the store query requires `dietLabels` to contain every Title-Case
normalized diet token and `healthLabels` every normalized health token
(conjunctively), adds no constraint for a category with no tokens, and
its results are exactly the bodies of the matching documents (the
internal identifier and version fields are projected away). -/
theorem storeQuery_conjunctive_semantics (dietQ healthQ : QueryParam)
    (store : List StoredDoc) :
    (∀ r : Recipe, matchesQuery (storeQueryOf dietQ healthQ) r =
      ((normalizeParam dietQ).all (fun t => r.dietLabels.contains t) &&
       (normalizeParam healthQ).all (fun t => r.healthLabels.contains t))) ∧
    ((storeQueryOf dietQ healthQ).dietAll =
      if normalizeParam dietQ = [] then none else some (normalizeParam dietQ)) ∧
    ((storeQueryOf dietQ healthQ).healthAll =
      if normalizeParam healthQ = [] then none else some (normalizeParam healthQ)) ∧
    (∀ r : Recipe, r ∈ storeMatches dietQ healthQ store ↔
      ∃ doc : StoredDoc, doc ∈ store ∧
        matchesQuery (storeQueryOf dietQ healthQ) doc.body = true ∧ r = doc.body) := by
  refine ⟨?_, ?_, ?_, ?_⟩
  · intro r
    unfold matchesQuery storeQueryOf mongoAll
    by_cases hd : normalizeParam dietQ = [] <;> by_cases hh : normalizeParam healthQ = []
    · simp [hd, hh]
    · simp [hd, hh, List.length_pos, List.isEmpty_eq_false.mpr hh]
    · simp [hd, hh, List.length_pos, List.isEmpty_eq_false.mpr hd]
    · simp [hd, hh, List.length_pos, List.isEmpty_eq_false.mpr hd,
        List.isEmpty_eq_false.mpr hh]
  · unfold storeQueryOf
    by_cases hd : normalizeParam dietQ = [] <;> simp [hd, List.length_pos]
  · unfold storeQueryOf
    by_cases hh : normalizeParam healthQ = [] <;> simp [hh, List.length_pos]
  · intro r
    unfold storeMatches findProjected
    simp only [List.mem_map, List.mem_filter]
    constructor
    · rintro ⟨doc, ⟨hdoc, hmatch⟩, rfl⟩
      exact ⟨doc, hdoc, hmatch, rfl⟩
    · rintro ⟨doc, hdoc, hmatch, rfl⟩
      exact ⟨doc, ⟨hdoc, hmatch⟩, rfl⟩

/-- Witness for C5: a single diet token is required of `dietLabels`, so a
label-free recipe does not match. -/
theorem storeQuery_conjunctive_semantics_witness :
    matchesQuery (storeQueryOf (QueryParam.single (String.toList "low-carb"))
      QueryParam.missing) sampleRecipe = false := by
  have h := (storeQuery_conjunctive_semantics
    (QueryParam.single (String.toList "low-carb")) QueryParam.missing []).1 sampleRecipe
  rw [h]
  decide

/-- C6 counterexample: for the supplied diet token sharp s (U+00DF) the
code Title-cases it to "SS" and lowercases that to "ss", so the sent
`diet=` parameter value is "ss" while the full lowercase form of the
originally supplied token is "ß" — the claimed value equality fails. -/
theorem providerQuery_not_lowercase_of_original :
    (getRecipes (QueryParam.single ['ß']) QueryParam.missing [] none id).providerQuery ≠
      some ('&' ::
        (jsJoin ['&'] ((rawTokens (QueryParam.single ['ß'])).map fun t =>
            String.toList "diet=" ++ encodeURIComponent (jsToLowerCase t)) ++
          '&' :: jsJoin ['&'] ((rawTokens QueryParam.missing).map fun t =>
            String.toList "health=" ++ encodeURIComponent (jsToLowerCase t)))) := by
  decide

/-- C6 amended: when every supplied token is ASCII, the query string sent
on fallback carries each supplied diet token as its own `diet=`
parameter and each health token as its own `health=` parameter, the
value being the full-lowercase form of the originally supplied token
(on ASCII tokens, lowercasing the Title-Case store form equals
lowercasing the original token). -/
theorem providerQuery_lowercase_params_ascii (dietQ healthQ : QueryParam)
    (store : List StoredDoc) (pd : Option ProviderData)
    (shuffle : List Recipe → List Recipe)
    (hlen : (storeMatches dietQ healthQ store).length < 12)
    (hda : ∀ t ∈ rawTokens dietQ, asciiOnly t = true)
    (hha : ∀ t ∈ rawTokens healthQ, asciiOnly t = true) :
    (getRecipes dietQ healthQ store pd shuffle).providerQuery =
      some ('&' ::
        (jsJoin ['&'] ((rawTokens dietQ).map fun t =>
            String.toList "diet=" ++ encodeURIComponent (jsToLowerCase t)) ++
          '&' :: jsJoin ['&'] ((rawTokens healthQ).map fun t =>
            String.toList "health=" ++ encodeURIComponent (jsToLowerCase t)))) ∧
    ∀ t : Str, asciiOnly t = true →
      jsToLowerCase (capitalizeWords t) = jsToLowerCase t := by
  refine ⟨?_, fun t ht => jsToLowerCase_capitalizeWords_ascii ht⟩
  have harg : ∀ p : QueryParam, (∀ t ∈ rawTokens p, asciiOnly t = true) →
      (normalizeParam p).map jsToLowerCase = (rawTokens p).map jsToLowerCase := by
    intro p hp
    rw [normalizeParam_eq_map, List.map_map]
    exact List.map_congr_left fun t ht => jsToLowerCase_capitalizeWords_ascii (hp t ht)
  have hq : providerQueryStringOf dietQ healthQ =
      jsJoin ['&'] ((rawTokens dietQ).map fun t =>
        String.toList "diet=" ++ encodeURIComponent (jsToLowerCase t)) ++
      '&' :: jsJoin ['&'] ((rawTokens healthQ).map fun t =>
        String.toList "health=" ++ encodeURIComponent (jsToLowerCase t)) := by
    unfold providerQueryStringOf buildQueryString
    rw [harg dietQ hda, harg healthQ hha, List.map_map, List.map_map]
    rfl
  have hg : getRecipes dietQ healthQ store pd shuffle =
      getRecipesFallback dietQ healthQ store pd shuffle := by
    unfold getRecipes
    exact if_pos hlen
  rw [hg]
  cases pd with
  | none =>
    show some ('&' :: providerQueryStringOf dietQ healthQ) = _
    rw [hq]
  | some d =>
    obtain ⟨dhits⟩ := d
    cases dhits with
    | none =>
      show some ('&' :: providerQueryStringOf dietQ healthQ) = _
      rw [hq]
    | some hits =>
      have hred : getRecipesFallback dietQ healthQ store (some ⟨some hits⟩) shuffle =
          mappedResult dietQ healthQ store shuffle (mapExcept mapHit (hits.take 100)) := rfl
      rw [hred]
      cases hm : mapExcept mapHit (hits.take 100) with
      | error e =>
        show some ('&' :: providerQueryStringOf dietQ healthQ) = _
        rw [hq]
      | ok fetched =>
        show some ('&' :: providerQueryStringOf dietQ healthQ) = _
        rw [hq]

/-- Witness for C6 (amended): a concrete mixed-case ASCII token is sent
lowercased. -/
theorem providerQuery_lowercase_params_ascii_witness :
    (getRecipes (QueryParam.single (String.toList "Low-CARB")) QueryParam.missing
        [] none id).providerQuery =
      some ('&' ::
        (jsJoin ['&'] ((rawTokens (QueryParam.single (String.toList "Low-CARB"))).map fun t =>
            String.toList "diet=" ++ encodeURIComponent (jsToLowerCase t)) ++
          '&' :: jsJoin ['&'] ((rawTokens QueryParam.missing).map fun t =>
            String.toList "health=" ++ encodeURIComponent (jsToLowerCase t)))) :=
  (providerQuery_lowercase_params_ascii (QueryParam.single (String.toList "Low-CARB"))
    QueryParam.missing [] none id (by decide) (by decide) (by decide)).1

/-- C9 amended: if any of the first 100 hits (the `slice(0,100)` window
that the mapping covers) lacks a `dietLabels` or `healthLabels` array,
the mapping throws before any persistence: the caller gets the generic
500 and the store is unchanged; moreover a successful mapping always
takes its label arrays from the hit, so the `|| []` defaulting is
unreachable. -/
theorem getRecipes_missingLabels_internalError (dietQ healthQ : QueryParam)
    (store : List StoredDoc) (d : ProviderData) (hits : List ProviderHit)
    (shuffle : List Recipe → List Recipe)
    (hlen : (storeMatches dietQ healthQ store).length < 12)
    (hhits : d.hits = some hits)
    (hbad : (hits.take 100).any
      (fun h => h.recipe.dietLabels.isNone || h.recipe.healthLabels.isNone) = true) :
    (getRecipes dietQ healthQ store (some d) shuffle).response =
      .error 500 (String.toList "Internal Server Error") ∧
    (getRecipes dietQ healthQ store (some d) shuffle).store = store ∧
    (∀ (h : ProviderHit) (r : Recipe), mapHit h = .ok r →
      ∃ dl hl, h.recipe.dietLabels = some dl ∧ h.recipe.healthLabels = some hl ∧
        r.dietLabels = dl.map capitalizeWords ∧
        r.healthLabels = hl.map capitalizeWords) := by
  obtain ⟨e, he⟩ := mapExcept_error_of_any
    (fun h hp => ⟨JsError.typeError, mapHit_error_of_missing_labels hp⟩) _ hbad
  obtain ⟨dhits⟩ := d
  have hd : dhits = some hits := hhits
  subst hd
  have hg : getRecipes dietQ healthQ store (some ⟨some hits⟩) shuffle =
      mappedResult dietQ healthQ store shuffle (mapExcept mapHit (hits.take 100)) := by
    unfold getRecipes
    rw [if_pos hlen]
    rfl
  rw [hg, he]
  exact ⟨rfl, rfl, fun h r hok => mapHit_ok_labels hok⟩

/-- A provider hit with no `dietLabels` array at all. -/
def badLabelsHit : ProviderHit :=
  { recipe :=
    { label := String.toList "Soup"
      image := []
      source := none
      url := none
      dietLabels := none
      healthLabels := some []
      ingredientLines := none
      yield := some 2
      calories := some 250
      totalTime := none
      cuisineType := none
      mealType := none
      dishType := none
      totalNutrients := none } }

/-- Witness for C9: one hit without a `dietLabels` array yields the 500 and
leaves the store empty. -/
theorem getRecipes_missingLabels_internalError_witness :
    (getRecipes .missing .missing [] (some { hits := some [badLabelsHit] }) id).response =
      .error 500 (String.toList "Internal Server Error") ∧
    (getRecipes .missing .missing [] (some { hits := some [badLabelsHit] }) id).store = [] :=
  ⟨(getRecipes_missingLabels_internalError .missing .missing [] { hits := some [badLabelsHit] }
      [badLabelsHit] id (by decide) rfl (by decide)).1,
   (getRecipes_missingLabels_internalError .missing .missing [] { hits := some [badLabelsHit] }
      [badLabelsHit] id (by decide) rfl (by decide)).2.1⟩

/-- A well-formed provider hit whose mapping succeeds. -/
def wellFormedHit : ProviderHit :=
  { recipe :=
    { label := String.toList "Rice"
      image := []
      source := none
      url := none
      dietLabels := some []
      healthLabels := some []
      ingredientLines := none
      yield := some 1
      calories := some 50
      totalTime := none
      cuisineType := none
      mealType := none
      dishType := none
      totalNutrients := none } }

/-- C9 counterexample: a response of 101 hits whose only label-less hit
sits just beyond the `slice(0,100)` window maps successfully — no 500 is
produced and the bulk insert does run (the store is no longer empty), so
the unrestricted claim is false of the code. -/
theorem missingLabels_beyond_slice_no_error :
    (getRecipes .missing .missing []
        (some { hits := some (List.replicate 100 wellFormedHit ++ [badLabelsHit]) })
        id).response ≠
      HttpResponse.error 500 (String.toList "Internal Server Error") ∧
    (getRecipes .missing .missing []
        (some { hits := some (List.replicate 100 wellFormedHit ++ [badLabelsHit]) })
        id).store ≠ ([] : List StoredDoc) := by
  decide

end DietDelight
